import Mathlib

/-!
Shallow embedding of the tool-calling core of the `dekomposit` repository:
`dekomposit/llm/tool_executor.py`, `dekomposit/llm/tool_loop.py`,
`dekomposit/llm/memory.py`, `dekomposit/llm/tools/{base,registry}.py`,
`dekomposit/llm/formatting/{models,registry}.py` and
`dekomposit/llm/agent.py` (`handle_message` / `chat`).

Python values that cross the tool boundary are JSON-like, so they are
modelled by an inductive `Json` type.  Python exceptions are modelled with
`Except String`; `None` is modelled with `Option`.  The Python standard
library's `json.loads` is not repository code: a tool call carries the raw
arguments string together with the outcome of parsing it (`Option Json`,
`none` standing for `json.JSONDecodeError`).
-/

namespace Dekomposit

/-- JSON-like Python values (dicts modelled as association lists in
insertion order, matching Python dict semantics; numbers as `Int`, which is
all the claims need). -/
inductive Json where
  | null : Json
  | bool (b : Bool) : Json
  | num (n : Int) : Json
  | str (s : String) : Json
  | arr (items : List Json) : Json
  | obj (fields : List (String × Json)) : Json

mutual

/-- Model of Python's `json.dumps(result, ensure_ascii=False)` as used by
`ToolExecutor.build_tool_message`.  String escaping is elided (no claim
depends on the rendered text, only on which message carries it). -/
def dumpJson : Json → String
  | Json.null => "null"
  | Json.bool true => "true"
  | Json.bool false => "false"
  | Json.num n => toString n
  | Json.str s => "\"" ++ s ++ "\""
  | Json.arr items => "[" ++ dumpJsonItems items ++ "]"
  | Json.obj fields => "\x7b" ++ dumpJsonFields fields ++ "\x7d"

/-- Comma-separated rendering of a JSON array's items. -/
def dumpJsonItems : List Json → String
  | [] => ""
  | [x] => dumpJson x
  | x :: y :: rest => dumpJson x ++ ", " ++ dumpJsonItems (y :: rest)

/-- Comma-separated rendering of a JSON object's key/value pairs. -/
def dumpJsonFields : List (String × Json) → String
  | [] => ""
  | [(k, v)] => "\"" ++ k ++ "\": " ++ dumpJson v
  | (k, v) :: kv :: rest =>
      "\"" ++ k ++ "\": " ++ dumpJson v ++ ", " ++ dumpJsonFields (kv :: rest)

end

/-- Lookup of a key in a JSON object (Python `d["k"]` / `d.get("k")` on a
dict literal); `none` on non-objects or missing keys. -/
def Json.get? : Json → String → Option Json
  | Json.obj fields, k => (fields.find? fun kv => kv.1 == k).map (·.2)
  | _, _ => none

/-- `True` exactly on JSON objects (Python `isinstance(x, dict)`). -/
def Json.isObj : Json → Bool
  | Json.obj _ => true
  | _ => false

/-!
## `dekomposit/llm/tools/base.py` — `BaseTool`

`BaseTool.__init__` stores exactly a `name` and a `description`; there is
no `enabled` attribute in the source.  The abstract async `__call__` is
modelled as a function from the parsed keyword-argument mapping to
`Except String Json` (`Except.error` standing for a raised exception whose
`str()` is the payload), and `get_schema()` as a stored `Json` value.
-/

structure BaseTool where
  name : String
  description : String
  call : List (String × Json) → Except String Json
  get_schema : Json

/-!
## `dekomposit/llm/tools/registry.py` — `ToolRegistry`

The `_tools` mapping (tool instances registered via `register`, keyed by
`tool.name`) is modelled as an association list in insertion order.  The
factory table and `importlib`-based auto-discovery are process-level
reflection and are outside the shallow embedding; with an empty factory
table, `get`, `list_tools` and `get_tool_schemas` reduce to the `_tools`
paths modelled here.
-/

structure ToolRegistry where
  tools : List (String × BaseTool)

/-- `ToolRegistry.get`: exact lookup in `_tools` (the factory fallbacks do
not apply when no factories are registered). -/
def ToolRegistry.get (reg : ToolRegistry) (name : String) : Option BaseTool :=
  (reg.tools.find? fun kv => kv.1 == name).map (·.2)

/-- Insertion into a sorted list of strings (helper for modelling
Python's `sorted`). -/
def insertSorted (s : String) : List String → List String
  | [] => [s]
  | x :: xs => if s ≤ x then s :: x :: xs else x :: insertSorted s xs

/-- Python's `sorted` on a list of strings, as a structural insertion
sort. -/
def sortStrings : List String → List String
  | [] => []
  | x :: xs => insertSorted x (sortStrings xs)

/-- `ToolRegistry.list_tools`: sorted names of all registered tools. -/
def ToolRegistry.list_tools (reg : ToolRegistry) : List String :=
  sortStrings (reg.tools.map Prod.fst).eraseDups

/-- `ToolRegistry.get_tool_schemas`: one OpenAI-style schema entry per
registered tool, built from the tool's `name`, `description` and
`get_schema()`.  The source has no notion of a disabled tool: every tool
that `get` resolves contributes an entry. -/
def ToolRegistry.get_tool_schemas (reg : ToolRegistry) : List Json :=
  (reg.list_tools).filterMap fun name =>
    match reg.get name with
    | none => none
    | some tool =>
        some (Json.obj
          [("type", Json.str "function"),
           ("function", Json.obj
             [("name", Json.str tool.name),
              ("description", Json.str tool.description),
              ("parameters", tool.get_schema)])])

/-!
## `dekomposit/llm/tool_executor.py` — `ToolExecutor`
-/

/-- A model tool call (`{id, function: {name, arguments}}`).
`argumentsParsed` is the outcome of Python's `json.loads` on the raw
`arguments` string: `none` for a `JSONDecodeError`, `some v` for a
successful parse.  An absent (`None`) id is modelled as `""`, which is
exactly what the code's truthiness tests distinguish. -/
structure ToolFunction where
  name : String
  arguments : String
  argumentsParsed : Option Json

structure ToolCall where
  id : String
  function : ToolFunction

structure ToolCallRecord where
  tool_name : String
  arguments : List (String × Json)
  result : Json

/-- `ToolExecutor.safe_parse_tool_arguments`: `json.loads`, with `{}` on a
parse error, and `{}` again when the parse result is not a dict. -/
def safe_parse_tool_arguments (parsed : Option Json) : List (String × Json) :=
  match parsed with
  | none => []
  | some (Json.obj fields) => fields
  | some _ => []

/-- `ToolExecutor.normalize_tool_result`: a dict is used as-is, anything
else is wrapped as `{"result": value}`. -/
def normalize_tool_result (raw : Json) : Json :=
  match raw with
  | Json.obj fields => Json.obj fields
  | v => Json.obj [("result", v)]

/-- `ToolExecutor.execute`: parse arguments, look the tool up, run it with
the parsed mapping, normalize the outcome; a missing tool or a raising
tool yields a structured error dict.  Totality of this function is the
model of "never raises". -/
def ToolExecutor.execute (reg : ToolRegistry) (tc : ToolCall) : ToolCallRecord :=
  let tool_name := tc.function.name
  let tool_args := safe_parse_tool_arguments tc.function.argumentsParsed
  match reg.get tool_name with
  | none =>
      { tool_name := tool_name
        arguments := tool_args
        result := Json.obj [("error", Json.str ("Tool not found: " ++ tool_name))] }
  | some tool =>
      match tool.call tool_args with
      | Except.ok raw =>
          { tool_name := tool_name
            arguments := tool_args
            result := normalize_tool_result raw }
      | Except.error exc =>
          { tool_name := tool_name
            arguments := tool_args
            result := Json.obj
              [("error", Json.str "Tool execution failed"),
               ("details", Json.str exc)] }

/-- `ToolExecutor.build_assistant_tool_message`: the assistant echo of the
requested calls; each entry's `id` falls back to the function name when
the call id is empty/absent (`tc.id if tc.id else tc.function.name`). -/
def build_assistant_tool_message (content : String) (tool_calls : List ToolCall) : Json :=
  Json.obj
    [("role", Json.str "assistant"),
     ("content", Json.str content),
     ("tool_calls", Json.arr (tool_calls.map fun tc =>
        Json.obj
          [("id", Json.str (if tc.id = "" then tc.function.name else tc.id)),
           ("type", Json.str "function"),
           ("function", Json.obj
             [("name", Json.str tc.function.name),
              ("arguments", Json.str tc.function.arguments)])]))]

/-- `ToolExecutor.build_tool_message`: the `role="tool"` result message;
`tool_call_id` is the call id, or the tool name when the id is
empty/absent. -/
def build_tool_message (tc : ToolCall) (tool_name : String) (result : Json) : Json :=
  let tool_call_id := if tc.id = "" then tool_name else tc.id
  Json.obj
    [("role", Json.str "tool"),
     ("tool_call_id", Json.str tool_call_id),
     ("name", Json.str tool_name),
     ("content", Json.str (dumpJson result))]

/-!
## `dekomposit/llm/tool_loop.py` — `ToolLoopRunner`
-/

/-- The message object of `response.choices[0].message` returned by
`Client.request_with_tools`.  A `None` content is `none`; a `None` or
empty `tool_calls` list is `[]` (the code only tests `if not tool_calls`,
which identifies the two). -/
structure ClientMessage where
  content : Option String
  tool_calls : List ToolCall

/-- The external client boundary: the full message list plus the optional
tool-schema list (as passed by the loop) determine the model reply. -/
def Client : Type := List Json → Option (List Json) → ClientMessage

/-- `AgentResult` (`{type, message, tool_calls}`). -/
structure AgentResult where
  type : String
  message : String
  tool_calls : List ToolCallRecord

/-- The seed message list `[{role: system, ...}, {role: user, ...}]`. -/
def initMessages (system_prompt text : String) : List Json :=
  [Json.obj [("role", Json.str "system"), ("content", Json.str system_prompt)],
   Json.obj [("role", Json.str "user"), ("content", Json.str text)]]

/-- `self._registry.get_tool_schemas() or None`: an empty schema list is
falsy and is passed as `None`. -/
def toolsArg (reg : ToolRegistry) : Option (List Json) :=
  if reg.get_tool_schemas.isEmpty then none else some reg.get_tool_schemas

/-- `message.content or "[TOOL CALL]"`: `None` and the empty string are
falsy and are replaced by the placeholder. -/
def contentOrPlaceholder (content : Option String) : String :=
  match content with
  | none => "[TOOL CALL]"
  | some s => if s = "" then "[TOOL CALL]" else s

/-- The body of the `for tool_call in tool_calls:` loop: execute each call
in order, appending one `role="tool"` message and one `ToolCallRecord` per
call. -/
def processToolCalls (reg : ToolRegistry) :
    List ToolCall → List Json → List ToolCallRecord →
    List Json × List ToolCallRecord
  | [], messages, history => (messages, history)
  | tc :: rest, messages, history =>
      let record := ToolExecutor.execute reg tc
      processToolCalls reg rest
        (messages ++ [build_tool_message tc record.tool_name record.result])
        (history ++ [record])

/-- `ToolLoopRunner.run`'s `for iteration in range(max_iterations)` loop,
with `fuel` the remaining iterations.  The second component counts the
calls made to `Client.request_with_tools`.  Exhausted fuel is the
fall-through after the `for` loop: the `type="error"` result. -/
def ToolLoopRunner.runLoop (client : Client) (reg : ToolRegistry) :
    List Json → List ToolCallRecord → Nat → AgentResult × Nat
  | _messages, history, 0 =>
      ({ type := "error"
         message := "Maximum iterations reached"
         tool_calls := history }, 0)
  | messages, history, fuel + 1 =>
      let response := client messages (toolsArg reg)
      let tool_calls := response.tool_calls
      if tool_calls.isEmpty then
        ({ type := "response"
           message := response.content.getD ""
           tool_calls := history }, 1)
      else
        let assistant_content := contentOrPlaceholder response.content
        let messages1 := messages ++ [build_assistant_tool_message assistant_content tool_calls]
        let (messages2, history2) := processToolCalls reg tool_calls messages1 history
        let (result, calls) := ToolLoopRunner.runLoop client reg messages2 history2 fuel
        (result, calls + 1)

/-- `ToolLoopRunner.run(text, system_prompt, max_iterations)`. -/
def ToolLoopRunner.run (client : Client) (reg : ToolRegistry)
    (text system_prompt : String) (max_iterations : Nat) : AgentResult :=
  (ToolLoopRunner.runLoop client reg (initMessages system_prompt text) [] max_iterations).1

/-- Number of `Client.request_with_tools` calls a `ToolLoopRunner.run`
invocation performs. -/
def ToolLoopRunner.clientCalls (client : Client) (reg : ToolRegistry)
    (text system_prompt : String) (max_iterations : Nat) : Nat :=
  (ToolLoopRunner.runLoop client reg (initMessages system_prompt text) [] max_iterations).2

/-!
## `dekomposit/llm/memory.py` — `UserMemory.add_message`

Only `conversation_history` is touched by `add_message`; an entry is the
`{"role": r, "content": c}` pair. -/

/-- `UserMemory.add_message`: append, then trim to the last 50 entries
(`self.conversation_history[-50:]`) whenever the length exceeds 50. -/
def UserMemory.add_message (history : List (String × String))
    (role content : String) : List (String × String) :=
  let h := history ++ [(role, content)]
  if h.length > 50 then h.drop (h.length - 50) else h

/-- A whole sequence of `add_message` calls starting from the fresh
(empty) history of `UserMemory.__init__`. -/
def UserMemory.addMessages (msgs : List (String × String)) : List (String × String) :=
  msgs.foldl (fun h rc => UserMemory.add_message h rc.1 rc.2) []

/-!
## `dekomposit/llm/agent.py` — `Agent.handle_message` and `Agent.chat`

The agent state touched by `handle_message` is the conversation history
(`self.memory.conversation_history`) and the composed system prompt
(`self.base_prompt`).  `self.execute_tools(text)` is the agent's own copy
of the tool loop and returns an `AgentResult`-shaped dict; it is passed in
as the `result` argument.  `self._rebuild_base_prompt()` recomposes
`self.base_prompt` from the static prompt files and the current memory; it
is modelled by the `rebuild` function argument applied to the history. -/

structure AgentState where
  conversation_history : List (String × String)
  base_prompt : String

/-- `Agent.handle_message`: add the user entry, run the loop (its result
is the `result` argument), and on a `type=="response"` result with truthy
(non-empty) message also add the assistant entry and rebuild the base
prompt. -/
def Agent.handle_message (rebuild : List (String × String) → String)
    (st : AgentState) (text : String) (result : AgentResult) :
    AgentState × AgentResult :=
  let hist1 := UserMemory.add_message st.conversation_history "user" text
  if result.type = "response" then
    if result.message ≠ "" then
      let hist2 := UserMemory.add_message hist1 "assistant" result.message
      ({ conversation_history := hist2, base_prompt := rebuild hist2 }, result)
    else
      ({ conversation_history := hist1, base_prompt := st.base_prompt }, result)
  else
    ({ conversation_history := hist1, base_prompt := st.base_prompt }, result)

/-- `Agent.chat`: `handle_message` runs with no `try`/`except` around it,
so an exception raised while handling the message (`Except.error`, e.g. an
upstream client failure escaping the loop) propagates to the caller; only
a `None` result produces the fixed apology string.  `fmtTranslation`
models `self.format_translation` and `showResult` models Python's
`str(result)` on the fall-through branch; neither affects the claims. -/
def Agent.chat (fmtTranslation showResult : AgentResult → String)
    (handled : Except String (Option AgentResult)) : Except String String :=
  match handled with
  | Except.error e => Except.error e
  | Except.ok none => Except.ok "Sorry, I couldn\x27t process that."
  | Except.ok (some result) =>
      if result.type = "translation" then Except.ok (fmtTranslation result)
      else if result.type = "response" then Except.ok result.message
      else Except.ok (showResult result)

/-!
## `dekomposit/llm/formatting/{models,registry}.py` — `FormatPreset`,
`FormatRegistry`
-/

/-- `FormatPreset` (pydantic model; `metadata` is irrelevant to the
claims and omitted). -/
structure FormatPreset where
  name : String
  description : String
  open_tag : String
  close_tag : String
  template : String

/-- The opening brace character. -/
def lbrace : Char := Char.ofNat 123

/-- The closing brace character. -/
def rbrace : Char := Char.ofNat 125

/-- Keyword-argument lookup for template substitution. -/
def lookupVal (vals : List (String × String)) (k : String) : Option String :=
  (vals.find? fun kv => kv.1 == k).map (·.2)

/-- Character-level scanner behind the model of `template.format(**kwargs)`:
outside a placeholder (`acc = none`) characters are copied and an opening
brace starts a placeholder; inside one (`acc = some key`) a closing brace
substitutes the keyword value.  (Python's `str.format` raises `KeyError`
on an unknown placeholder; no claim exercises that path, the model
substitutes the empty string.) -/
def substChars (vals : List (String × String)) : Option (List Char) → List Char → List Char
  | none, [] => []
  | none, c :: cs =>
      if c = lbrace then substChars vals (some []) cs
      else c :: substChars vals none cs
  | some _, [] => []
  | some acc, c :: cs =>
      if c = rbrace then
        (match lookupVal vals (String.mk acc.reverse) with
         | some v => v.data
         | none => []) ++ substChars vals none cs
      else substChars vals (some (c :: acc)) cs

/-- `template.format(**kwargs)`: substitute every `\x7bkey\x7d`
placeholder by its keyword value. -/
def formatTemplate (template : String) (vals : List (String × String)) : String :=
  String.mk (substChars vals none template.data)

/-- `FormatPreset.render`: `open_tag + template.format(**kwargs) + close_tag`. -/
def FormatPreset.render (p : FormatPreset) (vals : List (String × String)) : String :=
  p.open_tag ++ formatTemplate p.template vals ++ p.close_tag

/-- The registry state: `_presets` (insertion order) and `_active`. -/
structure FormatRegistry where
  presets : List (String × FormatPreset)
  active : String

/-- `FormatRegistry.__init__` + `_load_from_file`: a missing or unreadable
file leaves the defaults (`_presets = {}`, `_active =
"translation_default"`) — every failure path is caught and logged, so
construction always returns a registry; loaded data installs its `active`
name and preset table unconditionally, whether or not the active name is
present.  `fileData` is the parsed file content, `none` for a
missing/unreadable file. -/
def FormatRegistry.construct
    (fileData : Option (String × List (String × FormatPreset))) : FormatRegistry :=
  match fileData with
  | none => { presets := [], active := "translation_default" }
  | some (active, presets) => { presets := presets, active := active }

/-- `FormatRegistry.get`: `self._presets.get(name)`. -/
def FormatRegistry.get (reg : FormatRegistry) (name : String) : Option FormatPreset :=
  (reg.presets.find? fun kv => kv.1 == name).map (·.2)

/-- `FormatRegistry.get_active`: `ValueError` (modelled as `Except.error`)
when the active preset is not in `_presets`. -/
def FormatRegistry.get_active (reg : FormatRegistry) : Except String FormatPreset :=
  match reg.get reg.active with
  | none => Except.error ("Active preset \x27" ++ reg.active ++ "\x27 not found")
  | some preset => Except.ok preset

/-- `FormatRegistry.render`: a truthy `preset_name` is looked up, falling
back to the active preset when missing; `None` (and the falsy empty
string) go straight to the active preset. -/
def FormatRegistry.render (reg : FormatRegistry) (preset_name : Option String)
    (vals : List (String × String)) : Except String String :=
  let viaActive := reg.get_active.map fun p => p.render vals
  match preset_name with
  | some n =>
      if n = "" then viaActive
      else
        match reg.get n with
        | some p => Except.ok (p.render vals)
        | none => viaActive
  | none => viaActive

/-!
## Derived descriptions and concrete fixtures used in statements
-/

/-- The messages one loop iteration appends when the model requests tool
calls: the assistant echo (content falling back to the placeholder)
followed by one `role="tool"` message per requested call, in request
order.  Derived from the body of `ToolLoopRunner.run`. -/
def iterationAppendedMessages (reg : ToolRegistry) (response : ClientMessage) : List Json :=
  build_assistant_tool_message (contentOrPlaceholder response.content) response.tool_calls ::
    response.tool_calls.map fun tc =>
      build_tool_message tc (ToolExecutor.execute reg tc).tool_name
        (ToolExecutor.execute reg tc).result

/-- The `ToolCallRecord`s one loop iteration appends: one per requested
call, in request order. -/
def iterationAppendedRecords (reg : ToolRegistry) (response : ClientMessage) : List ToolCallRecord :=
  response.tool_calls.map (ToolExecutor.execute reg)

/-- A sample tool that succeeds with a dict result (mirrors the repo's
`EchoTool` test fixture). -/
def echoTool : BaseTool :=
  { name := "echo_tool"
    description := "Echo input text"
    call := fun args => Except.ok (Json.obj args)
    get_schema := Json.obj
      [("type", Json.str "object"), ("properties", Json.obj []),
       ("required", Json.arr [])] }

/-- A sample tool that returns a non-dict value. -/
def pingTool : BaseTool :=
  { name := "ping_tool"
    description := "Returns a bare string"
    call := fun _ => Except.ok (Json.str "pong")
    get_schema := Json.obj
      [("type", Json.str "object"), ("properties", Json.obj []),
       ("required", Json.arr [])] }

/-- A sample tool whose body always raises. -/
def boomTool : BaseTool :=
  { name := "boom_tool"
    description := "Always raises"
    call := fun _ => Except.error "division by zero"
    get_schema := Json.obj
      [("type", Json.str "object"), ("properties", Json.obj []),
       ("required", Json.arr [])] }

/-- `ReversoAPI` from `dekomposit/llm/tools/reverso_api.py`: its name and
description as declared in its `__init__`, a body that raises
`NotImplementedError`, and the default `BaseTool.get_schema()`. -/
def reversoTool : BaseTool :=
  { name := "reverso_api"
    description := "Get translations and context examples from Reverso Context"
    call := fun _ => Except.error "Reverso API integration not yet implemented"
    get_schema := Json.obj
      [("type", Json.str "object"), ("properties", Json.obj []),
       ("required", Json.arr [])] }

/-- A sample registry holding the three sample tools. -/
def sampleRegistry : ToolRegistry :=
  { tools := [("echo_tool", echoTool), ("ping_tool", pingTool), ("boom_tool", boomTool)] }

/-- A client that always requests exactly one `echo_tool` call. -/
def alwaysToolClient : Client :=
  fun _ _ =>
    { content := none
      tool_calls := [{ id := "call_1",
                       function := { name := "echo_tool",
                                     arguments := "\x7b\"text\": \"ping\"\x7d",
                                     argumentsParsed := some (Json.obj [("text", Json.str "ping")]) } }] }

/-- A client that immediately answers with plain text and no tool calls. -/
def directClient : Client :=
  fun _ _ => { content := some "Hi there", tool_calls := [] }

/-- The `existing` preset of the repo's
`test_format_registry_raises_when_active_preset_missing` fixture. -/
def existingPreset : FormatPreset :=
  { name := "existing", description := "x", open_tag := "<x>", close_tag := "</x>",
    template := "\x7btranslation\x7d" }

/-- The `translation_default` preset of the repo's shipped
`formatting/default.json`. -/
def translationDefaultPreset : FormatPreset :=
  { name := "translation_default", description := "",
    open_tag := "<translation>", close_tag := "</translation>",
    template := "[\x7bsource\x7d → \x7btarget\x7d] \x7btranslation\x7d" }

/-- The registry state loaded from the shipped `default.json` (active
preset present). -/
def defaultFormatRegistry : FormatRegistry :=
  { presets := [("translation_default", translationDefaultPreset)],
    active := "translation_default" }

/-!
## Supporting lemmas
-/

/-- One `add_message` call in closed form: append, then drop down to the
last 50 entries. -/
theorem add_message_eq_drop (history : List (String × String)) (role content : String) :
    UserMemory.add_message history role content =
      (history ++ [(role, content)]).drop ((history.length + 1) - 50) := by
  unfold UserMemory.add_message
  simp only [List.length_append, List.length_cons, List.length_nil, Nat.zero_add]
  split
  · rfl
  · rename_i h
    rw [show (history.length + 1) - 50 = 0 by omega, List.drop_zero]

/-- `addMessages` in closed form: the freshest `min(n, 50)` entries in
insertion order. -/
theorem addMessages_eq_drop (msgs : List (String × String)) :
    UserMemory.addMessages msgs = msgs.drop (msgs.length - 50) := by
  induction msgs using List.reverseRecOn with
  | nil => rfl
  | append_singleton l a ih =>
    have hstep : UserMemory.addMessages (l ++ [a]) =
        UserMemory.add_message (UserMemory.addMessages l) a.1 a.2 := by
      unfold UserMemory.addMessages
      rw [List.foldl_append]
      rfl
    rw [hstep, ih, add_message_eq_drop]
    have hlen : (l.drop (l.length - 50)).length = l.length - (l.length - 50) :=
      List.length_drop _ _
    rcases le_or_lt l.length 49 with hle | hgt
    · have h0 : l.length - 50 = 0 := by omega
      have h1 : (l.drop (l.length - 50)).length + 1 - 50 = 0 := by omega
      have h2 : l.length + 1 - 50 = 0 := by
        simpa using Nat.sub_eq_zero_of_le (by omega)
      rw [h0, List.drop_zero] at *
      rw [h1, List.drop_zero]
      simp only [List.length_append, List.length_cons, List.length_nil, Nat.zero_add]
      rw [show l.length + 1 - 50 = 0 by omega, List.drop_zero]
    · have hd : (l.drop (l.length - 50)).length = 50 := by omega
      have h1 : (l.drop (l.length - 50)).length + 1 - 50 = 1 := by omega
      simp only [List.length_append, List.length_cons, List.length_nil, Nat.zero_add]
      rw [h1]
      rw [List.drop_append_of_le_length (by omega), List.drop_drop]
      rw [List.drop_append_of_le_length (by omega)]
      rw [show l.length - 50 + 1 = l.length + 1 - 50 by omega]

/-- `ToolExecutor.execute` records the call's function name verbatim. -/
theorem execute_tool_name (reg : ToolRegistry) (tc : ToolCall) :
    (ToolExecutor.execute reg tc).tool_name = tc.function.name := by
  simp only [ToolExecutor.execute]
  split
  · rfl
  · split <;> rfl

/-- The per-iteration tool-execution loop in closed form: the message list
grows by one `role="tool"` message per call and the history by one record
per call, both in request order. -/
theorem processToolCalls_eq (reg : ToolRegistry) (calls : List ToolCall)
    (messages : List Json) (history : List ToolCallRecord) :
    processToolCalls reg calls messages history =
      (messages ++ calls.map (fun tc =>
          build_tool_message tc (ToolExecutor.execute reg tc).tool_name
            (ToolExecutor.execute reg tc).result),
       history ++ calls.map (ToolExecutor.execute reg)) := by
  induction calls generalizing messages history with
  | nil => simp [processToolCalls]
  | cons tc rest ih =>
    simp only [processToolCalls, ih, List.map_cons, List.append_assoc,
      List.cons_append, List.nil_append]

/-- One loop iteration with tool calls: unfolds to the recursive call on
the extended message list and history, with one more client call. -/
theorem runLoop_step (client : Client) (reg : ToolRegistry)
    (messages : List Json) (history : List ToolCallRecord) (fuel : Nat)
    (h : (client messages (toolsArg reg)).tool_calls ≠ []) :
    ToolLoopRunner.runLoop client reg messages history (fuel + 1) =
      ((ToolLoopRunner.runLoop client reg
          (messages ++ iterationAppendedMessages reg (client messages (toolsArg reg)))
          (history ++ iterationAppendedRecords reg (client messages (toolsArg reg)))
          fuel).1,
       (ToolLoopRunner.runLoop client reg
          (messages ++ iterationAppendedMessages reg (client messages (toolsArg reg)))
          (history ++ iterationAppendedRecords reg (client messages (toolsArg reg)))
          fuel).2 + 1) := by
  simp only [ToolLoopRunner.runLoop]
  rw [if_neg (by simp only [List.isEmpty_eq_true]; exact h)]
  simp only [processToolCalls_eq, iterationAppendedMessages, iterationAppendedRecords,
    List.append_assoc, List.cons_append, List.nil_append, List.singleton_append]

/-- One loop iteration without tool calls: the final `type="response"`
result after a single client call. -/
theorem runLoop_done (client : Client) (reg : ToolRegistry)
    (messages : List Json) (history : List ToolCallRecord) (fuel : Nat)
    (h : (client messages (toolsArg reg)).tool_calls = []) :
    ToolLoopRunner.runLoop client reg messages history (fuel + 1) =
      ({ type := "response"
         message := (client messages (toolsArg reg)).content.getD ""
         tool_calls := history }, 1) := by
  simp only [ToolLoopRunner.runLoop]
  rw [if_pos (by simp only [List.isEmpty_eq_true]; exact h)]

/-- Under a client that always requests tool calls, the loop burns its
whole budget: `fuel` client calls and the budget-exhaustion result. -/
theorem runLoop_exhausts (client : Client) (reg : ToolRegistry)
    (h : ∀ msgs t, (client msgs t).tool_calls ≠ []) (fuel : Nat) :
    ∀ (messages : List Json) (history : List ToolCallRecord),
      (ToolLoopRunner.runLoop client reg messages history fuel).1.type = "error" ∧
      (ToolLoopRunner.runLoop client reg messages history fuel).1.message =
        "Maximum iterations reached" ∧
      (ToolLoopRunner.runLoop client reg messages history fuel).2 = fuel := by
  induction fuel with
  | zero => intro messages history; exact ⟨rfl, rfl, rfl⟩
  | succ n ih =>
    intro messages history
    rw [runLoop_step client reg messages history n (h messages (toolsArg reg))]
    refine ⟨(ih _ _).1, (ih _ _).2.1, ?_⟩
    simp only [(ih _ _).2.2]

/-- Under a client that requests exactly one tool call per turn, each
iteration appends exactly one record, so the final history length is the
starting length plus the budget. -/
theorem runLoop_exhausts_length (client : Client) (reg : ToolRegistry)
    (h1 : ∀ msgs t, ((client msgs t).tool_calls).length = 1) (fuel : Nat) :
    ∀ (messages : List Json) (history : List ToolCallRecord),
      (ToolLoopRunner.runLoop client reg messages history fuel).1.tool_calls.length =
        history.length + fuel := by
  induction fuel with
  | zero => intro messages history; simp [ToolLoopRunner.runLoop]
  | succ n ih =>
    intro messages history
    have hne : (client messages (toolsArg reg)).tool_calls ≠ [] := by
      intro hnil
      have := h1 messages (toolsArg reg)
      rw [hnil] at this
      simp at this
    rw [runLoop_step client reg messages history n hne]
    simp only [ih]
    simp only [iterationAppendedRecords, List.length_append, List.length_map,
      h1 messages (toolsArg reg)]
    omega

/-!
## Claim theorems
-/

/-- C1: for every `max_iterations = K ≥ 1`, if the client returns at
least one tool call on every iteration, `ToolLoopRunner.run` makes
exactly `K` calls to `Client.request_with_tools` and returns (as a value,
not an exception — `run` is a total function) an `AgentResult` with
`type = "error"`, `message = "Maximum iterations reached"`, and
`tool_calls` the accumulated records — of length `K` when the model
requests exactly one tool call per turn. -/
theorem tool_loop_budget_exhaustion (client : Client) (reg : ToolRegistry)
    (text system_prompt : String) (K : Nat) (_hK : 1 ≤ K)
    (h : ∀ msgs t, (client msgs t).tool_calls ≠ []) :
    ToolLoopRunner.clientCalls client reg text system_prompt K = K ∧
    (ToolLoopRunner.run client reg text system_prompt K).type = "error" ∧
    (ToolLoopRunner.run client reg text system_prompt K).message =
      "Maximum iterations reached" ∧
    ((∀ msgs t, ((client msgs t).tool_calls).length = 1) →
      (ToolLoopRunner.run client reg text system_prompt K).tool_calls.length = K) := by
  refine ⟨(runLoop_exhausts client reg h K _ _).2.2,
          (runLoop_exhausts client reg h K _ _).1,
          (runLoop_exhausts client reg h K _ _).2.1, ?_⟩
  intro h1
  have := runLoop_exhausts_length client reg h1 K (initMessages system_prompt text) []
  simpa [ToolLoopRunner.run] using this

/-- C1 witness: with a client that always requests exactly one tool call
and `K = 3`, the loop makes 3 client calls and returns the
budget-exhaustion error with 3 accumulated records. -/
theorem tool_loop_budget_exhaustion_witness :
    (1 ≤ 3 ∧ ∀ msgs t, (alwaysToolClient msgs t).tool_calls ≠ []) ∧
    ToolLoopRunner.clientCalls alwaysToolClient sampleRegistry "hello" "sys" 3 = 3 ∧
    (ToolLoopRunner.run alwaysToolClient sampleRegistry "hello" "sys" 3).type = "error" ∧
    (ToolLoopRunner.run alwaysToolClient sampleRegistry "hello" "sys" 3).message =
      "Maximum iterations reached" ∧
    (ToolLoopRunner.run alwaysToolClient sampleRegistry "hello" "sys" 3).tool_calls.length = 3 := by
  have hne : ∀ msgs t, (alwaysToolClient msgs t).tool_calls ≠ [] := by
    intro msgs t
    simp [alwaysToolClient]
  have h1 : ∀ msgs t, ((alwaysToolClient msgs t).tool_calls).length = 1 := by
    intro msgs t
    simp [alwaysToolClient]
  have main := tool_loop_budget_exhaustion alwaysToolClient sampleRegistry "hello" "sys" 3
    (by decide) hne
  exact ⟨⟨by decide, hne⟩, main.1, main.2.1, main.2.2.1, main.2.2.2 h1⟩

/-- C3: when the client's first reply carries no tool calls, the loop
returns on the first iteration (one client call) with `type =
"response"`, the model text (empty string when content is `None`/absent)
as `message`, and an empty `tool_calls` list. -/
theorem tool_loop_first_response (client : Client) (reg : ToolRegistry)
    (text system_prompt : String) (K : Nat) (hK : 1 ≤ K)
    (h : (client (initMessages system_prompt text) (toolsArg reg)).tool_calls = []) :
    ToolLoopRunner.run client reg text system_prompt K =
      { type := "response"
        message := (client (initMessages system_prompt text) (toolsArg reg)).content.getD ""
        tool_calls := [] } ∧
    ToolLoopRunner.clientCalls client reg text system_prompt K = 1 := by
  obtain ⟨k, rfl⟩ : ∃ k, K = k + 1 := ⟨K - 1, by omega⟩
  have := runLoop_done client reg (initMessages system_prompt text) [] k h
  exact ⟨by simp [ToolLoopRunner.run, this], by simp [ToolLoopRunner.clientCalls, this]⟩

/-- C3 witness: the direct-answer client returns `"Hi there"` on the
first of 5 iterations with no tool calls recorded. -/
theorem tool_loop_first_response_witness :
    (1 ≤ 5 ∧
      (directClient (initMessages "sys" "hello") (toolsArg sampleRegistry)).tool_calls = []) ∧
    ToolLoopRunner.run directClient sampleRegistry "hello" "sys" 5 =
      { type := "response", message := "Hi there", tool_calls := [] } ∧
    ToolLoopRunner.clientCalls directClient sampleRegistry "hello" "sys" 5 = 1 := by
  have h : (directClient (initMessages "sys" "hello") (toolsArg sampleRegistry)).tool_calls = [] :=
    rfl
  have main := tool_loop_first_response directClient sampleRegistry "hello" "sys" 5
    (by decide) h
  exact ⟨⟨by decide, h⟩, main.1, main.2⟩

/-- C5: the conversation history is a sliding window: a whole sequence of
`add_message` calls leaves exactly the most recent `min(n, 50)` entries
in insertion order (`drop (n - 50)` keeps oldest-first order), the length
after any sequence is `min(n, 50) ≤ 50`, and each single call from any
state yields length `min(previous + 1, 50)`; instantiating the first
conjunct at 60 messages keeps exactly the last 50. -/
theorem memory_history_sliding_window (msgs : List (String × String)) :
    UserMemory.addMessages msgs = msgs.drop (msgs.length - 50) ∧
    (UserMemory.addMessages msgs).length = min msgs.length 50 ∧
    (∀ (history : List (String × String)) (role content : String),
      (UserMemory.add_message history role content).length = min (history.length + 1) 50) := by
  refine ⟨addMessages_eq_drop msgs, ?_, ?_⟩
  · rw [addMessages_eq_drop, List.length_drop]
    omega
  · intro history role content
    rw [add_message_eq_drop, List.length_drop]
    simp only [List.length_append, List.length_cons, List.length_nil, Nat.zero_add]
    omega

/-- C10: `safe_parse_tool_arguments` yields the empty mapping both on a
parse failure (`none`) and on every successfully parsed non-object JSON
value, and yields the parsed fields on an object; its return type is an
argument mapping, so unpacking never fails for a non-mapping reason. -/
theorem safe_parse_nonobject_empty :
    safe_parse_tool_arguments none = [] ∧
    safe_parse_tool_arguments (some Json.null) = [] ∧
    (∀ b, safe_parse_tool_arguments (some (Json.bool b)) = []) ∧
    (∀ n, safe_parse_tool_arguments (some (Json.num n)) = []) ∧
    (∀ s, safe_parse_tool_arguments (some (Json.str s)) = []) ∧
    (∀ items, safe_parse_tool_arguments (some (Json.arr items)) = []) ∧
    (∀ fields, safe_parse_tool_arguments (some (Json.obj fields)) = fields) :=
  ⟨rfl, rfl, fun _ => rfl, fun _ => rfl, fun _ => rfl, fun _ => rfl, fun _ => rfl⟩

/-- C4: `ToolExecutor.execute` is total (the model of "never raises") and
(i) an unparsable arguments string means the tool is invoked with — and
the record carries — the empty mapping, (ii) an unregistered name yields
the `Tool not found` error dict, (iii) a raising tool body yields the
`Tool execution failed`/`details` dict, (iv) a successful dict result is
used as-is while a non-dict result is wrapped as `{"result": value}`. -/
theorem executor_execute_contract (reg : ToolRegistry) (tc : ToolCall) :
    (tc.function.argumentsParsed = none →
      (ToolExecutor.execute reg tc).arguments = []) ∧
    (reg.get tc.function.name = none →
      (ToolExecutor.execute reg tc).result =
        Json.obj [("error", Json.str ("Tool not found: " ++ tc.function.name))]) ∧
    (∀ tool e, reg.get tc.function.name = some tool →
      tool.call (safe_parse_tool_arguments tc.function.argumentsParsed) = Except.error e →
      (ToolExecutor.execute reg tc).result =
        Json.obj [("error", Json.str "Tool execution failed"), ("details", Json.str e)]) ∧
    (∀ tool v, reg.get tc.function.name = some tool →
      tool.call (safe_parse_tool_arguments tc.function.argumentsParsed) = Except.ok v →
      (ToolExecutor.execute reg tc).result = normalize_tool_result v) ∧
    (∀ fields, normalize_tool_result (Json.obj fields) = Json.obj fields) ∧
    (∀ v, v.isObj = false → normalize_tool_result v = Json.obj [("result", v)]) := by
  refine ⟨?_, ?_, ?_, ?_, fun _ => rfl, ?_⟩
  · intro hparse
    simp only [ToolExecutor.execute, hparse]
    split
    · rfl
    · split <;> rfl
  · intro hget
    simp only [ToolExecutor.execute, hget]
  · intro tool e hget hcall
    simp only [ToolExecutor.execute, hget, hcall]
  · intro tool v hget hcall
    simp only [ToolExecutor.execute, hget, hcall]
  · intro v hv
    cases v <;> simp_all [normalize_tool_result, Json.isObj]

/-- C4 witness: in the sample registry, a call to an unknown tool with
unparsable arguments degrades to the empty mapping and the not-found
error; a raising tool yields the failure dict; a non-dict result is
wrapped; a dict result is passed through. -/
theorem executor_execute_contract_witness :
    ((⟨"c0", ⟨"nope", "not json", none⟩⟩ : ToolCall).function.argumentsParsed = none ∧
      sampleRegistry.get "nope" = none) ∧
    (ToolExecutor.execute sampleRegistry ⟨"c0", ⟨"nope", "not json", none⟩⟩).arguments = [] ∧
    (ToolExecutor.execute sampleRegistry ⟨"c0", ⟨"nope", "not json", none⟩⟩).result =
      Json.obj [("error", Json.str "Tool not found: nope")] ∧
    (ToolExecutor.execute sampleRegistry ⟨"c1", ⟨"boom_tool", "\x7b\x7d", some (Json.obj [])⟩⟩).result =
      Json.obj [("error", Json.str "Tool execution failed"), ("details", Json.str "division by zero")] ∧
    (ToolExecutor.execute sampleRegistry ⟨"c2", ⟨"ping_tool", "\x7b\x7d", some (Json.obj [])⟩⟩).result =
      Json.obj [("result", Json.str "pong")] ∧
    (ToolExecutor.execute sampleRegistry
        ⟨"c3", ⟨"echo_tool", "\x7b\"text\": \"ping\"\x7d",
                some (Json.obj [("text", Json.str "ping")])⟩⟩).result =
      Json.obj [("text", Json.str "ping")] := by
  refine ⟨⟨rfl, rfl⟩, ?_, ?_, ?_, ?_, ?_⟩
  · exact (executor_execute_contract sampleRegistry ⟨"c0", ⟨"nope", "not json", none⟩⟩).1 rfl
  · exact (executor_execute_contract sampleRegistry ⟨"c0", ⟨"nope", "not json", none⟩⟩).2.1 rfl
  · exact (executor_execute_contract sampleRegistry
      ⟨"c1", ⟨"boom_tool", "\x7b\x7d", some (Json.obj [])⟩⟩).2.2.1 boomTool "division by zero"
      rfl rfl
  · exact (executor_execute_contract sampleRegistry
      ⟨"c2", ⟨"ping_tool", "\x7b\x7d", some (Json.obj [])⟩⟩).2.2.2.1 pingTool (Json.str "pong")
      rfl rfl
  · exact (executor_execute_contract sampleRegistry
      ⟨"c3", ⟨"echo_tool", "\x7b\"text\": \"ping\"\x7d",
              some (Json.obj [("text", Json.str "ping")])⟩⟩).2.2.2.1 echoTool
      (Json.obj [("text", Json.str "ping")]) rfl rfl

/-- C2: whenever an iteration's model reply requests `N ≥ 1` tool calls,
the loop extends the message list by exactly one assistant echo message
followed by exactly `N` `role="tool"` messages, one per call, in request
order (and the history by the `N` records, in the same order); the echo's
content is the model content, replaced by the non-empty placeholder
`"[TOOL CALL]"` when the content is `None` or empty; each tool message's
`tool_call_id` is the call's id, or the tool's name when the id is
empty. -/
theorem tool_loop_iteration_message_shape (client : Client) (reg : ToolRegistry)
    (messages : List Json) (history : List ToolCallRecord) (fuel : Nat)
    (h : (client messages (toolsArg reg)).tool_calls ≠ []) :
    ToolLoopRunner.runLoop client reg messages history (fuel + 1) =
      ((ToolLoopRunner.runLoop client reg
          (messages ++ iterationAppendedMessages reg (client messages (toolsArg reg)))
          (history ++ iterationAppendedRecords reg (client messages (toolsArg reg)))
          fuel).1,
       (ToolLoopRunner.runLoop client reg
          (messages ++ iterationAppendedMessages reg (client messages (toolsArg reg)))
          (history ++ iterationAppendedRecords reg (client messages (toolsArg reg)))
          fuel).2 + 1) ∧
    iterationAppendedMessages reg (client messages (toolsArg reg)) =
      build_assistant_tool_message
          (contentOrPlaceholder (client messages (toolsArg reg)).content)
          (client messages (toolsArg reg)).tool_calls ::
        (client messages (toolsArg reg)).tool_calls.map (fun tc =>
          build_tool_message tc tc.function.name (ToolExecutor.execute reg tc).result) ∧
    ((client messages (toolsArg reg)).tool_calls.map (fun tc =>
        build_tool_message tc tc.function.name (ToolExecutor.execute reg tc).result)).length =
      (client messages (toolsArg reg)).tool_calls.length ∧
    (contentOrPlaceholder none = "[TOOL CALL]" ∧
      contentOrPlaceholder (some "") = "[TOOL CALL]" ∧
      "[TOOL CALL]" ≠ "" ∧
      ∀ s : String, s ≠ "" → contentOrPlaceholder (some s) = s) ∧
    (∀ (tc : ToolCall) (name : String) (result : Json),
      (build_tool_message tc name result).get? "tool_call_id" =
        some (Json.str (if tc.id = "" then name else tc.id))) := by
  refine ⟨runLoop_step client reg messages history fuel h, ?_, List.length_map _ _, ?_, ?_⟩
  · simp only [iterationAppendedMessages, execute_tool_name]
  · refine ⟨rfl, rfl, by decide, ?_⟩
    intro s hs
    simp [contentOrPlaceholder, hs]
  · intro tc name result
    simp only [build_tool_message, Json.get?]
    rfl

/-- C2 witness: one iteration of the always-one-tool-call client appends
the assistant echo plus exactly one tool message whose `tool_call_id` is
the call id `"call_1"`. -/
theorem tool_loop_iteration_message_shape_witness :
    (alwaysToolClient (initMessages "sys" "hi") (toolsArg sampleRegistry)).tool_calls ≠ [] ∧
    ToolLoopRunner.runLoop alwaysToolClient sampleRegistry (initMessages "sys" "hi") [] 1 =
      ((ToolLoopRunner.runLoop alwaysToolClient sampleRegistry
          (initMessages "sys" "hi" ++
            iterationAppendedMessages sampleRegistry
              (alwaysToolClient (initMessages "sys" "hi") (toolsArg sampleRegistry)))
          ([] ++ iterationAppendedRecords sampleRegistry
              (alwaysToolClient (initMessages "sys" "hi") (toolsArg sampleRegistry)))
          0).1,
       (ToolLoopRunner.runLoop alwaysToolClient sampleRegistry
          (initMessages "sys" "hi" ++
            iterationAppendedMessages sampleRegistry
              (alwaysToolClient (initMessages "sys" "hi") (toolsArg sampleRegistry)))
          ([] ++ iterationAppendedRecords sampleRegistry
              (alwaysToolClient (initMessages "sys" "hi") (toolsArg sampleRegistry)))
          0).2 + 1) ∧
    (iterationAppendedMessages sampleRegistry
        (alwaysToolClient (initMessages "sys" "hi") (toolsArg sampleRegistry))).length = 1 + 1 ∧
    ((iterationAppendedMessages sampleRegistry
        (alwaysToolClient (initMessages "sys" "hi") (toolsArg sampleRegistry))).drop 1).map
        (fun m => m.get? "tool_call_id") = [some (Json.str "call_1")] := by
  have h : (alwaysToolClient (initMessages "sys" "hi") (toolsArg sampleRegistry)).tool_calls ≠ [] := by
    simp [alwaysToolClient]
  have main := tool_loop_iteration_message_shape alwaysToolClient sampleRegistry
    (initMessages "sys" "hi") [] 0 h
  refine ⟨h, main.1, ?_, ?_⟩
  · rw [main.2.1]
    simp [alwaysToolClient]
  · rw [main.2.1]
    have hid := main.2.2.2.2
    simp only [alwaysToolClient, List.map_cons, List.map_nil, List.drop_succ_cons,
      List.drop_zero]
    rw [hid]
    rfl

/-- C6 counterexample: `Agent.chat` wraps `handle_message` in no
`try`/`except`, so an exception raised while handling the message (here a
modelled upstream client failure) propagates to the caller instead of
becoming the apology string — refuting the claim that `chat` never
propagates and always converts to the fixed apology. -/
theorem chat_propagates_exception :
    Agent.chat (fun r => r.message) (fun r => r.type)
        (Except.error "API request failed") =
      Except.error "API request failed" ∧
    Agent.chat (fun r => r.message) (fun r => r.type)
        (Except.error "API request failed") ≠
      Except.ok "Sorry, I couldn\x27t process that." :=
  ⟨rfl, by simp [Agent.chat]⟩

/-- C6 amended: `Agent.chat` propagates any exception raised while
handling the message; the fixed apology string is returned exactly when
`handle_message` returns `None`, and a `type="response"` result is
returned as its message without raising. -/
theorem chat_exception_behaviour (fmtTranslation showResult : AgentResult → String)
    (e : String) (r : AgentResult) :
    Agent.chat fmtTranslation showResult (Except.error e) = Except.error e ∧
    Agent.chat fmtTranslation showResult (Except.ok none) =
      Except.ok "Sorry, I couldn\x27t process that." ∧
    (r.type = "response" →
      Agent.chat fmtTranslation showResult (Except.ok (some r)) = Except.ok r.message) := by
  refine ⟨rfl, rfl, ?_⟩
  intro hr
  simp [Agent.chat, hr]

/-- C6 amended witness: concrete error, `None` and response results. -/
theorem chat_exception_behaviour_witness :
    (({ type := "response", message := "Hi there", tool_calls := [] } : AgentResult).type =
        "response") ∧
    Agent.chat (fun r => r.message) (fun r => r.type) (Except.error "boom") =
      Except.error "boom" ∧
    Agent.chat (fun r => r.message) (fun r => r.type) (Except.ok none) =
      Except.ok "Sorry, I couldn\x27t process that." ∧
    Agent.chat (fun r => r.message) (fun r => r.type)
        (Except.ok (some { type := "response", message := "Hi there", tool_calls := [] })) =
      Except.ok "Hi there" := by
  have main := chat_exception_behaviour (fun r => r.message) (fun r => r.type) "boom"
    { type := "response", message := "Hi there", tool_calls := [] }
  exact ⟨rfl, main.1, main.2.1, main.2.2 rfl⟩

/-- C7 counterexample: with the repo's own broken-fixture file content
(active name `missing_active`, only preset `existing`),
`FormatRegistry` construction completes normally — it returns a registry
value carrying the missing active name rather than raising — and the
`ValueError` only arises from the later per-call `get_active` lookup,
refuting "raises at construction time, not merely on a later per-call
lookup". -/
theorem format_registry_construction_never_raises :
    FormatRegistry.construct (some ("missing_active", [("existing", existingPreset)])) =
      { presets := [("existing", existingPreset)], active := "missing_active" } ∧
    (FormatRegistry.construct
        (some ("missing_active", [("existing", existingPreset)]))).get_active =
      Except.error "Active preset \x27missing_active\x27 not found" :=
  ⟨rfl, rfl⟩

/-- C7 amended: construction installs whatever the preset file holds and
never raises, even when the active name is missing; the missing-active
`ValueError` is raised by the per-call `get_active` lookup; and per-call
rendering never raises while the active preset is present — a missing
non-active name falls back to the active preset. -/
theorem format_registry_active_error_on_lookup (active : String)
    (presets : List (String × FormatPreset)) (vals : List (String × String)) :
    FormatRegistry.construct (some (active, presets)) =
      { presets := presets, active := active } ∧
    (∀ reg : FormatRegistry, reg.get reg.active = none →
      reg.get_active =
        Except.error ("Active preset \x27" ++ reg.active ++ "\x27 not found")) ∧
    (∀ (reg : FormatRegistry) (p : FormatPreset) (name : String),
      reg.get reg.active = some p → reg.get name = none →
      reg.render (some name) vals = Except.ok (p.render vals) ∧
      reg.render none vals = Except.ok (p.render vals)) := by
  refine ⟨rfl, ?_, ?_⟩
  · intro reg hnone
    simp [FormatRegistry.get_active, hnone]
  · intro reg p name hactive hmissing
    have hact : reg.get_active = Except.ok p := by
      simp [FormatRegistry.get_active, hactive]
    constructor
    · by_cases hn : name = ""
      · simp [FormatRegistry.render, hn, hact, Except.map]
      · simp [FormatRegistry.render, hn, hmissing, hact, Except.map]
    · simp [FormatRegistry.render, hact, Except.map]

/-- C7 amended witness: the repo's default registry shape (active
`translation_default` present) renders a missing name `"missing"` via the
active preset, and never errors doing so. -/
theorem format_registry_active_error_on_lookup_witness :
    (defaultFormatRegistry.get defaultFormatRegistry.active =
        some translationDefaultPreset ∧
      defaultFormatRegistry.get "missing" = none) ∧
    defaultFormatRegistry.render (some "missing")
        [("source", "EN"), ("target", "RU"), ("translation", "Privet")] =
      Except.ok "<translation>[EN → RU] Privet</translation>" := by
  have main := format_registry_active_error_on_lookup "translation_default"
    [("translation_default", translationDefaultPreset)]
    [("source", "EN"), ("target", "RU"), ("translation", "Privet")]
  have hrender := (main.2.2 defaultFormatRegistry translationDefaultPreset
    "missing" rfl rfl).1
  refine ⟨⟨rfl, rfl⟩, ?_⟩
  rw [hrender]
  rfl

/-- C8 (code bug): `BaseTool.__init__` stores only `name` and
`description` — the modelled `BaseTool` has no `enabled` field because
the source has none — and `ToolRegistry.get_tool_schemas` emits a schema
entry for every registered tool: registering the `reverso_api` tool (the
one the repo's `test_registry_excludes_disabled_tools_from_schema`
expects to be excluded) puts its schema in the model-facing list. -/
theorem get_tool_schemas_includes_every_tool :
    ToolRegistry.get_tool_schemas { tools := [("reverso_api", reversoTool)] } =
      [Json.obj
        [("type", Json.str "function"),
         ("function", Json.obj
           [("name", Json.str "reverso_api"),
            ("description", Json.str "Get translations and context examples from Reverso Context"),
            ("parameters", Json.obj
              [("type", Json.str "object"), ("properties", Json.obj []),
               ("required", Json.arr [])])])]] ∧
    (ToolRegistry.get { tools := [("reverso_api", reversoTool)] } "reverso_api" =
      some reversoTool) := by
  constructor
  · rfl
  · rfl

/-- C9: `Agent.handle_message` always records the user entry; it records
the assistant entry and rebuilds the base prompt exactly when the loop
result has `type = "response"` with a non-empty message; on an error
result or an empty response message the history gains only the user entry
and the base prompt is unchanged.  The last conjunct states the „gains
exactly these entries" form for histories below the 50-entry window. -/
theorem handle_message_memory_effects (rebuild : List (String × String) → String)
    (st : AgentState) (text : String) (result : AgentResult) :
    (Agent.handle_message rebuild st text result).2 = result ∧
    (result.type = "response" → result.message ≠ "" →
      (Agent.handle_message rebuild st text result).1.conversation_history =
        UserMemory.add_message
          (UserMemory.add_message st.conversation_history "user" text)
          "assistant" result.message ∧
      (Agent.handle_message rebuild st text result).1.base_prompt =
        rebuild (Agent.handle_message rebuild st text result).1.conversation_history) ∧
    (¬(result.type = "response" ∧ result.message ≠ "") →
      (Agent.handle_message rebuild st text result).1.conversation_history =
        UserMemory.add_message st.conversation_history "user" text ∧
      (Agent.handle_message rebuild st text result).1.base_prompt = st.base_prompt) ∧
    (st.conversation_history.length ≤ 48 →
      (result.type = "response" → result.message ≠ "" →
        (Agent.handle_message rebuild st text result).1.conversation_history =
          st.conversation_history ++ [("user", text), ("assistant", result.message)]) ∧
      (¬(result.type = "response" ∧ result.message ≠ "") →
        (Agent.handle_message rebuild st text result).1.conversation_history =
          st.conversation_history ++ [("user", text)])) := by
  have husr : UserMemory.add_message st.conversation_history "user" text =
      (st.conversation_history ++ [("user", text)]).drop
        ((st.conversation_history.length + 1) - 50) :=
    add_message_eq_drop _ _ _
  refine ⟨?_, ?_, ?_, ?_⟩
  · unfold Agent.handle_message
    split <;> [skip; rfl]
    split <;> rfl
  · intro hty hmsg
    simp only [Agent.handle_message, if_pos hty, if_pos hmsg]
    trivial
  · intro hnot
    unfold Agent.handle_message
    by_cases hty : result.type = "response"
    · have hmsg : ¬result.message ≠ "" := fun hm => hnot ⟨hty, hm⟩
      simp only [if_pos hty, if_neg hmsg]
      trivial
    · simp only [if_neg hty]
      trivial
  · intro hlen
    have hdrop1 : UserMemory.add_message st.conversation_history "user" text =
        st.conversation_history ++ [("user", text)] := by
      rw [husr, show (st.conversation_history.length + 1) - 50 = 0 by omega, List.drop_zero]
    constructor
    · intro hty hmsg
      have h2 : UserMemory.add_message (st.conversation_history ++ [("user", text)])
          "assistant" result.message =
          st.conversation_history ++ [("user", text), ("assistant", result.message)] := by
        rw [add_message_eq_drop]
        simp only [List.length_append, List.length_cons, List.length_nil, Nat.zero_add]
        rw [show (st.conversation_history.length + 1 + 1) - 50 = 0 by omega, List.drop_zero,
          List.append_assoc]
        rfl
      simp only [Agent.handle_message, if_pos hty, if_pos hmsg, hdrop1, h2]
    · intro hnot
      unfold Agent.handle_message
      by_cases hty : result.type = "response"
      · have hmsg : ¬result.message ≠ "" := fun hm => hnot ⟨hty, hm⟩
        simp only [if_pos hty, if_neg hmsg, hdrop1]
      · simp only [if_neg hty, hdrop1]

/-- C9 witness: a sub-window history gains user+assistant entries and a
rebuilt prompt on a non-empty response, and only the user entry with an
untouched prompt on the budget-exhaustion error result. -/
theorem handle_message_memory_effects_witness :
    (({ type := "response", message := "Hi there", tool_calls := [] } : AgentResult).type =
        "response" ∧
      ({ type := "response", message := "Hi there", tool_calls := [] } : AgentResult).message ≠ "" ∧
      ¬(({ type := "error", message := "Maximum iterations reached", tool_calls := [] } :
          AgentResult).type = "response" ∧
        ({ type := "error", message := "Maximum iterations reached", tool_calls := [] } :
          AgentResult).message ≠ "") ∧
      ([(("user" : String), ("hello" : String))] : List (String × String)).length ≤ 48) ∧
    (Agent.handle_message (fun h => toString h.length) ⟨[("user", "hello")], "base"⟩ "hi"
        { type := "response", message := "Hi there", tool_calls := [] }).1.conversation_history =
      [("user", "hello"), ("user", "hi"), ("assistant", "Hi there")] ∧
    (Agent.handle_message (fun h => toString h.length) ⟨[("user", "hello")], "base"⟩ "hi"
        { type := "response", message := "Hi there", tool_calls := [] }).1.base_prompt = "3" ∧
    (Agent.handle_message (fun h => toString h.length) ⟨[("user", "hello")], "base"⟩ "hi"
        { type := "error", message := "Maximum iterations reached", tool_calls := [] }
      ).1.conversation_history = [("user", "hello"), ("user", "hi")] ∧
    (Agent.handle_message (fun h => toString h.length) ⟨[("user", "hello")], "base"⟩ "hi"
        { type := "error", message := "Maximum iterations reached", tool_calls := [] }
      ).1.base_prompt = "base" := by
  have hne : ¬(({ type := "error", message := "Maximum iterations reached", tool_calls := [] } :
      AgentResult).type = "response" ∧
      ({ type := "error", message := "Maximum iterations reached", tool_calls := [] } :
        AgentResult).message ≠ "") := by
    intro hc
    exact absurd hc.1 (by decide)
  have mainR := handle_message_memory_effects (fun h => toString h.length)
    ⟨[("user", "hello")], "base"⟩ "hi"
    { type := "response", message := "Hi there", tool_calls := [] }
  have mainE := handle_message_memory_effects (fun h => toString h.length)
    ⟨[("user", "hello")], "base"⟩ "hi"
    { type := "error", message := "Maximum iterations reached", tool_calls := [] }
  have hhist := (mainR.2.2.2 (by decide)).1 rfl (by decide)
  have hprompt := (mainR.2.1 rfl (by decide)).2
  have hhistE := (mainE.2.2.2 (by decide)).2 hne
  have hpromptE := (mainE.2.2.1 hne).2
  refine ⟨⟨rfl, by decide, hne, by decide⟩, hhist, ?_, hhistE, hpromptE⟩
  rw [hprompt, hhist]
  rfl

end Dekomposit
